import Mathlib

/-!
Verification development for the StockScope single-page stock analyzer
(`src/script.js`).  The JavaScript core is shallowly embedded: JS numbers
are modelled as exact rationals (`ℚ`), `Math.random()` calls are modelled
as reads from an explicit stream `rnd : ℕ → ℚ` of values in `[0,1)`,
`Math.round` is `⌊x + 1/2⌋` (round half toward positive infinity, as in
JS), and canvas drawing is modelled as a list of drawing commands.
Where JS would throw a `TypeError`, the embedded function reports the
error in an `Option String` component.  Division by zero yields `0` in
`ℚ` where JS would yield `NaN`; no theorem below evaluates a mapping at a
zero divisor except where that very division-by-zero is the point, and
there the statement is about the range value itself.
-/

namespace StockScope

/-- JS `Math.round(x * 100) / 100`: round to 2 decimals, half toward +∞. -/
def round2 (x : ℚ) : ℚ := (⌊x * 100 + 1/2⌋ : ℤ) / 100

/-- JS `x || d` for a numeric `x`: yields `d` exactly when `x` is falsy
(`0`); used for the range-zero guards (`maxPrice - minPrice || 1`). -/
def orDefault (x d : ℚ) : ℚ := if x = 0 then d else x

/-- JS `Math.min(...xs)` on a non-empty list (`0` stands in for the empty
case, where JS returns `Infinity`; no embedded claim consumes it). -/
def listMin : List ℚ → ℚ
  | [] => 0
  | [x] => x
  | x :: y :: xs => min x (listMin (y :: xs))

/-- JS `Math.max(...xs)` on a non-empty list (`0` stands in for the empty
case, where JS returns `-Infinity`; no embedded claim consumes it). -/
def listMax : List ℚ → ℚ
  | [] => 0
  | [x] => x
  | x :: y :: xs => max x (listMax (y :: xs))

/-- Shared X mapping of every chart: `padding + (index / (len - 1)) * chartWidth`. -/
def mapX (index len : ℕ) (padding chartWidth : ℚ) : ℚ :=
  padding + ((index : ℚ) / ((len : ℚ) - 1)) * chartWidth

/-- Shared inverted-Y mapping of every chart:
`padding + (1 - (value - minV) / range) * chartHeight`. -/
def mapY (value minV range padding chartHeight : ℚ) : ℚ :=
  padding + (1 - (value - minV) / range) * chartHeight

/-- A point of the long-form historical series (`generateHistoricalPrices`):
`{ date, price, volume }`, dates as epoch milliseconds. -/
@[ext]
structure PricePoint where
  date : ℤ
  price : ℚ
  volume : ℤ
  deriving DecidableEq, Repr

/-- A point of the sample chart series (`generatePriceData`): `{ date, price }`. -/
structure ChartPoint where
  date : ℤ
  price : ℚ
  deriving DecidableEq, Repr

/-- Loop body of `generateHistoricalPrices` (src/script.js 2390-2403).
Iteration `i` draws `rnd (4*i+1)` (volatility), `rnd (4*i+2)` (trend),
`rnd (4*i+3)` (change) and `rnd (4*i+4)` (volume); the walk continues with
the clamped, un-rounded price while the stored copy is rounded to cents. -/
def genHistSteps (currentPrice : ℚ) (days : ℕ) (now : ℤ) (rnd : ℕ → ℚ) :
    ℕ → ℚ → ℕ → List PricePoint
  | _, _, 0 => []
  | i, price, remaining + 1 =>
    let volatility : ℚ := 2/100 + rnd (4*i+1) * (3/100)
    let trend : ℚ := (rnd (4*i+2) - 1/2) * (1/100)
    let change : ℚ := (rnd (4*i+3) - 1/2) * volatility + trend
    let price' : ℚ := price * (1 + change)
    let price'' : ℚ := max price' (currentPrice * (1/2))
    { date := now - ((days : ℤ) - (i : ℤ)) * 86400000
      price := round2 price''
      volume := ⌊rnd (4*i+4) * 50000000⌋ + 10000000 } ::
      genHistSteps currentPrice days now rnd (i+1) price'' remaining

/-- `data[data.length - 1].price = c`: overwrite the last point's price.
On `[]` the JS would throw (`data[-1]` is undefined); the embedding
returns `[]`, and every claim below supplies a non-empty list. -/
def setLastPrice : List PricePoint → ℚ → List PricePoint
  | [], _ => []
  | [p], c => [{ p with price := c }]
  | p :: q :: ps, c => p :: setLastPrice (q :: ps) c

/-- `generateHistoricalPrices(currentPrice, days)` (src/script.js
2385-2408): random walk from `currentPrice * (0.85 + rnd 0 * 0.3)`,
clamped below at `0.5 * currentPrice`, stored prices rounded to cents,
then the last price is overwritten with `currentPrice`. -/
def generateHistoricalPrices (currentPrice : ℚ) (days : ℕ) (now : ℤ)
    (rnd : ℕ → ℚ) : List PricePoint :=
  let start : ℚ := currentPrice * (85/100 + rnd 0 * (3/10))
  setLastPrice (genHistSteps currentPrice days now rnd 0 start days) currentPrice

/-- Loop body of `generatePriceData` (src/script.js 2661-2669): iteration
`i` draws `rnd i`; stored prices are not rounded. -/
def genDataSteps (days : ℕ) (now : ℤ) (rnd : ℕ → ℚ) :
    ℕ → ℚ → ℕ → List ChartPoint
  | _, _, 0 => []
  | i, price, remaining + 1 =>
    let change : ℚ := (rnd i - 1/2) * (5/100)
    let price' : ℚ := price * (1 + change)
    { date := now - ((days : ℤ) - (i : ℤ)) * 86400000
      price := price' } ::
      genDataSteps days now rnd (i+1) price' remaining

/-- Overwrite the last `ChartPoint` price (same JS idiom as `setLastPrice`). -/
def setLastChartPrice : List ChartPoint → ℚ → List ChartPoint
  | [], _ => []
  | [p], c => [{ p with price := c }]
  | p :: q :: ps, c => p :: setLastChartPrice (q :: ps) c

/-- `generatePriceData(currentPrice, days)` (src/script.js 2658-2675):
walk from `currentPrice * 0.9`, per-step change `(rnd i - 0.5) * 0.05`,
then the last price is overwritten with `currentPrice`. -/
def generatePriceData (currentPrice : ℚ) (days : ℕ) (now : ℤ)
    (rnd : ℕ → ℚ) : List ChartPoint :=
  setLastChartPrice (genDataSteps days now rnd 0 (currentPrice * (9/10)) days)
    currentPrice

theorem length_genHistSteps (c : ℚ) (d : ℕ) (now : ℤ) (rnd : ℕ → ℚ) :
    ∀ (n : ℕ) (i : ℕ) (p : ℚ), (genHistSteps c d now rnd i p n).length = n := by
  intro n
  induction n with
  | zero => intro i p; rfl
  | succ m ih => intro i p; simp [genHistSteps, ih]

theorem length_genDataSteps (d : ℕ) (now : ℤ) (rnd : ℕ → ℚ) :
    ∀ (n : ℕ) (i : ℕ) (p : ℚ), (genDataSteps d now rnd i p n).length = n := by
  intro n
  induction n with
  | zero => intro i p; rfl
  | succ m ih => intro i p; simp [genDataSteps, ih]

theorem setLastPrice_ne_nil (c : ℚ) :
    ∀ (l : List PricePoint), l ≠ [] → setLastPrice l c ≠ [] := by
  intro l h
  match l with
  | [p] => simp [setLastPrice]
  | p :: q :: ps => simp [setLastPrice]

theorem getLast_setLastPrice (c : ℚ) :
    ∀ (l : List PricePoint), l ≠ [] →
      ((setLastPrice l c).getLast?).map PricePoint.price = some c := by
  intro l
  induction l with
  | nil => intro h; exact absurd rfl h
  | cons p ps ih =>
    intro _
    cases ps with
    | nil => rfl
    | cons q qs =>
      have h2 : (q :: qs : List PricePoint) ≠ [] := by simp
      obtain ⟨x, xs, hx⟩ :=
        List.exists_cons_of_ne_nil (setLastPrice_ne_nil c (q :: qs) h2)
      simp only [setLastPrice]
      rw [hx, List.getLast?_cons_cons, ← hx]
      exact ih h2

theorem setLastChartPrice_ne_nil (c : ℚ) :
    ∀ (l : List ChartPoint), l ≠ [] → setLastChartPrice l c ≠ [] := by
  intro l h
  match l with
  | [p] => simp [setLastChartPrice]
  | p :: q :: ps => simp [setLastChartPrice]

theorem getLast_setLastChartPrice (c : ℚ) :
    ∀ (l : List ChartPoint), l ≠ [] →
      ((setLastChartPrice l c).getLast?).map ChartPoint.price = some c := by
  intro l
  induction l with
  | nil => intro h; exact absurd rfl h
  | cons p ps ih =>
    intro _
    cases ps with
    | nil => rfl
    | cons q qs =>
      have h2 : (q :: qs : List ChartPoint) ≠ [] := by simp
      obtain ⟨x, xs, hx⟩ :=
        List.exists_cons_of_ne_nil (setLastChartPrice_ne_nil c (q :: qs) h2)
      simp only [setLastChartPrice]
      rw [hx, List.getLast?_cons_cons, ← hx]
      exact ih h2

/-- C1: for every generated historical series of length `N ≥ 2` (both the
long-form `generateHistoricalPrices` and the sample `generatePriceData`),
the final point's price equals the caller-supplied current price exactly:
the generator overwrites the last element after the random walk. -/
theorem final_price_equals_current (c : ℚ) (days : ℕ) (now : ℤ)
    (rnd : ℕ → ℚ) (h : 2 ≤ days) :
    ((generateHistoricalPrices c days now rnd).getLast?).map PricePoint.price
        = some c ∧
    ((generatePriceData c days now rnd).getLast?).map ChartPoint.price
        = some c := by
  have hl1 : (genHistSteps c days now rnd 0 (c * (85/100 + rnd 0 * (3/10)))
      days) ≠ [] := by
    have := length_genHistSteps c days now rnd days 0
      (c * (85/100 + rnd 0 * (3/10)))
    intro hnil
    rw [hnil] at this
    simp at this
    omega
  have hl2 : (genDataSteps days now rnd 0 (c * (9/10)) days) ≠ [] := by
    have := length_genDataSteps days now rnd days 0 (c * (9/10))
    intro hnil
    rw [hnil] at this
    simp at this
    omega
  exact ⟨getLast_setLastPrice c _ hl1, getLast_setLastChartPrice c _ hl2⟩

/-- C1 witness: at current price `100`, `days = 2`, the all-zeros random
stream, both generators end in a point of price exactly `100`. -/
theorem final_price_equals_current_witness :
    (2 ≤ 2) ∧
    (((generateHistoricalPrices 100 2 0 (fun _ => 0)).getLast?).map
        PricePoint.price = some 100 ∧
      ((generatePriceData 100 2 0 (fun _ => 0)).getLast?).map
        ChartPoint.price = some 100) :=
  ⟨le_refl 2, final_price_equals_current 100 2 0 (fun _ => 0) (le_refl 2)⟩

/-- `data[j].price` as the JS indexing reads it inside the moving-average
loop; every access below is in range, so the `getD 0` default is never hit
by a claim. -/
def priceAt (data : List PricePoint) (j : ℕ) : ℚ :=
  ((data[j]?).map PricePoint.price).getD 0

/-- `calculateMovingAverage(data, period)` (src/script.js 2552-2566): one
output per input index; `null` before the window fills, then the mean of
the trailing `period` prices.  The JS inner loop runs `j` from
`i - period + 1` to `i`; over `ℕ` that lower bound is `i + 1 - period`. -/
def calculateMovingAverage (data : List PricePoint) (period : ℕ) :
    List (Option ℚ) :=
  (List.range data.length).map (fun i =>
    if i < period - 1 then none
    else some (((List.range period).map
      (fun k => priceAt data (i + 1 - period + k))).sum / (period : ℚ)))

theorem sum_range_priceAt (data : List PricePoint) :
    ∀ (p a : ℕ), a + p ≤ data.length →
      ((List.range p).map (fun k => priceAt data (a + k))).sum
        = (((data.drop a).take p).map PricePoint.price).sum := by
  intro p
  induction p with
  | zero => intro a h; simp
  | succ m ih =>
    intro a h
    have h1 : a + m ≤ data.length := by omega
    have h2 : a + m < data.length := by omega
    rw [List.range_succ, List.map_append, List.sum_append, ih a h1,
      List.take_succ, List.map_append, List.sum_append, List.getElem?_drop]
    simp [priceAt, List.getElem?_eq_getElem h2]

/-- The five-point sample series of the spec: prices `[10,20,30,40,50]`. -/
def maSample : List PricePoint :=
  [⟨0, 10, 0⟩, ⟨0, 20, 0⟩, ⟨0, 30, 0⟩, ⟨0, 40, 0⟩, ⟨0, 50, 0⟩]

/-- C2: the moving average has the same length as its input, is `null`
(`none`) at every index `i < period - 1`, equals the arithmetic mean of
the trailing `period` prices at every in-range `i ≥ period - 1`, and on
prices `[10,20,30,40,50]` with period 3 yields `[_, _, 20, 30, 40]`. -/
theorem movingAverage_spec (data : List PricePoint) (period i : ℕ)
    (hp : 1 ≤ period) :
    (calculateMovingAverage data period).length = data.length ∧
    (i < period - 1 → i < data.length →
      (calculateMovingAverage data period)[i]? = some none) ∧
    (period - 1 ≤ i → i < data.length →
      (calculateMovingAverage data period)[i]? =
        some (some ((((data.drop (i + 1 - period)).take period).map
          PricePoint.price).sum / (period : ℚ)))) ∧
    calculateMovingAverage maSample 3
      = [none, none, some 20, some 30, some 40] := by
  refine ⟨by simp [calculateMovingAverage], ?_, ?_, ?_⟩
  · intro hlt hin
    simp only [calculateMovingAverage, List.getElem?_map,
      List.getElem?_range hin, Option.map_some']
    rw [if_pos hlt]
  · intro hge hin
    have hsum := sum_range_priceAt data period (i + 1 - period) (by omega)
    simp only [calculateMovingAverage, List.getElem?_map,
      List.getElem?_range hin, Option.map_some']
    rw [if_neg (by omega), hsum]
  · simp only [calculateMovingAverage,
      show maSample.length = 5 from rfl,
      show List.range 5 = [0, 1, 2, 3, 4] from rfl,
      show List.range 3 = [0, 1, 2] from rfl,
      List.map_cons, List.map_nil]
    norm_num [priceAt, maSample]

/-- C2 witness: the moving-average characterisation instantiated on the
five-point sample series with period 3 at index 2. -/
theorem movingAverage_spec_witness :
    1 ≤ 3 ∧
    ((calculateMovingAverage maSample 3).length = maSample.length ∧
    (2 < 3 - 1 → 2 < maSample.length →
      (calculateMovingAverage maSample 3)[2]? = some none) ∧
    (3 - 1 ≤ 2 → 2 < maSample.length →
      (calculateMovingAverage maSample 3)[2]? =
        some (some ((((maSample.drop (2 + 1 - 3)).take 3).map
          PricePoint.price).sum / (3 : ℚ)))) ∧
    calculateMovingAverage maSample 3
      = [none, none, some 20, some 30, some 40]) :=
  ⟨by norm_num, movingAverage_spec maSample 3 2 (by norm_num)⟩

/-- C5: the inverted-Y mapper sends domain `[0,100]` with pixel extent
`200` and padding `0` to pixels `100`, `200` (bottom) and `0` (top) for
values `50`, `0` and `100`; and for a series of length `≥ 2` the X
coordinates are strictly increasing in the index when the chart width is
positive. -/
theorem coordinate_mapper_spec (i j len : ℕ) (padding cw : ℚ)
    (hij : i < j) (hj : j < len) (h2 : 2 ≤ len) (hcw : 0 < cw) :
    mapY 50 0 100 0 200 = 100 ∧ mapY 0 0 100 0 200 = 200 ∧
    mapY 100 0 100 0 200 = 0 ∧
    mapX i len padding cw < mapX j len padding cw := by
  refine ⟨by norm_num [mapY], by norm_num [mapY], by norm_num [mapY], ?_⟩
  have hd : (0 : ℚ) < (len : ℚ) - 1 := by
    have : (2 : ℚ) ≤ (len : ℚ) := by exact_mod_cast h2
    linarith
  have hij' : (i : ℚ) < (j : ℚ) := by exact_mod_cast hij
  unfold mapX
  apply add_lt_add_left
  apply mul_lt_mul_of_pos_right _ hcw
  rw [div_eq_mul_inv, div_eq_mul_inv]
  exact mul_lt_mul_of_pos_right hij' (inv_pos.mpr hd)

/-- C5 witness: indices 0 and 1 of a 2-point series over a 260-pixel-wide
chart with padding 20 map to strictly increasing X coordinates, alongside
the three concrete Y mappings. -/
theorem coordinate_mapper_spec_witness :
    (0 < 1 ∧ 1 < 2 ∧ 2 ≤ 2 ∧ (0 : ℚ) < 260) ∧
    (mapY 50 0 100 0 200 = 100 ∧ mapY 0 0 100 0 200 = 200 ∧
      mapY 100 0 100 0 200 = 0 ∧
      mapX 0 2 20 260 < mapX 1 2 20 260) :=
  ⟨⟨Nat.zero_lt_one, Nat.one_lt_two, le_refl 2, by norm_num⟩,
    coordinate_mapper_spec 0 1 2 20 260 Nat.zero_lt_one Nat.one_lt_two
      (le_refl 2) (by norm_num)⟩

/-- `moveCarousel(type, direction)` (src/script.js 2078-2097), restricted
to its position arithmetic: stride `280 + 24`, clamp the new position
into `[-(numCards - 3) * cardWidth, 0]` (upper clamp first, then lower). -/
def moveCarousel (numCards : ℕ) (pos direction : ℤ) : ℤ :=
  let cardWidth : ℤ := 280 + 24
  let maxPosition : ℤ := -(((numCards : ℤ) - 3) * cardWidth)
  let p1 := pos + direction * cardWidth
  let p2 := if p1 > 0 then 0 else p1
  let p3 := if p2 < maxPosition then maxPosition else p2
  p3

theorem moveCarousel_step_bounds (numCards : ℕ) (pos direction : ℤ)
    (h3 : 3 ≤ numCards) :
    -(((numCards : ℤ) - 3) * 304) ≤ moveCarousel numCards pos direction ∧
      moveCarousel numCards pos direction ≤ 0 := by
  have hc : (3 : ℤ) ≤ (numCards : ℤ) := by exact_mod_cast h3
  simp only [moveCarousel]
  split_ifs <;> constructor <;> omega

theorem foldl_moveCarousel_bounds (numCards : ℕ) (h3 : 3 ≤ numCards) :
    ∀ (dirs : List ℤ) (pos : ℤ),
      -(((numCards : ℤ) - 3) * 304) ≤ pos → pos ≤ 0 →
      -(((numCards : ℤ) - 3) * 304) ≤ dirs.foldl (moveCarousel numCards) pos ∧
        dirs.foldl (moveCarousel numCards) pos ≤ 0 := by
  intro dirs
  induction dirs with
  | nil => intro pos hlo hhi; exact ⟨hlo, hhi⟩
  | cons d ds ih =>
    intro pos _ _
    have hstep := moveCarousel_step_bounds numCards pos d h3
    exact ih (moveCarousel numCards pos d) hstep.1 hstep.2

/-- C10: for a carousel of at least 3 cards (card stride 304 pixels),
every sequence of forward/backward moves starting from position 0 keeps
the stored position within `[-(numCards - 3) * 304, 0]`. -/
theorem carousel_position_bounded (numCards : ℕ) (dirs : List ℤ)
    (h3 : 3 ≤ numCards) :
    -(((numCards : ℤ) - 3) * 304) ≤ dirs.foldl (moveCarousel numCards) 0 ∧
      dirs.foldl (moveCarousel numCards) 0 ≤ 0 := by
  have hc : (3 : ℤ) ≤ (numCards : ℤ) := by exact_mod_cast h3
  exact foldl_moveCarousel_bounds numCards h3 dirs 0 (by nlinarith) le_rfl

/-- C10 witness: a 5-card carousel moved forward once, back four times and
forward once again stays within `[-608, 0]`. -/
theorem carousel_position_bounded_witness :
    3 ≤ 5 ∧
    (-((((5 : ℕ) : ℤ) - 3) * 304) ≤
        ([1, -1, -1, -1, -1, 1] : List ℤ).foldl (moveCarousel 5) 0 ∧
      ([1, -1, -1, -1, -1, 1] : List ℤ).foldl (moveCarousel 5) 0 ≤ 0) :=
  ⟨by norm_num, carousel_position_bounded 5 [1, -1, -1, -1, -1, 1] (by norm_num)⟩

/-- The fields of `this.currentStock` that `addToWatchlist` reads. -/
structure Stock where
  symbol : String
  name : String
  price : ℚ
  change : ℚ
  changePercent : ℚ
  deriving DecidableEq, Repr

/-- A persisted watchlist item as built by `addToWatchlist`
(src/script.js 2876-2884). -/
structure WatchlistEntry where
  symbol : String
  name : String
  addedAt : String
  price : ℚ
  change : ℚ
  changePercent : ℚ
  deriving DecidableEq, Repr

/-- A `showNotification(message, type)` call. -/
inductive Notification where
  | warning (msg : String)
  | success (msg : String)
  | error (msg : String)
  deriving DecidableEq, Repr

/-- Outcome of `addToWatchlist`: the in-memory list, the notification
shown, and the list written to `localStorage` (`none` when nothing was
durably saved). -/
structure AddResult where
  watchlist : List WatchlistEntry
  notification : Option Notification
  persisted : Option (List WatchlistEntry)
  deriving DecidableEq, Repr

/-- `addToWatchlist()` (src/script.js 2863-2900).  `saveOk` models whether
the `localStorage.setItem` call succeeds; on failure the pushed item stays
in memory (the JS returns after the catch without rolling back). -/
def addToWatchlist (currentStock : Option Stock)
    (watchlist : List WatchlistEntry) (nowIso : String) (saveOk : Bool) :
    AddResult :=
  match currentStock with
  | none => ⟨watchlist, none, none⟩
  | some s =>
    if watchlist.any (fun st => st.symbol == s.symbol) then
      ⟨watchlist,
        some (.warning (s.symbol ++ " is already in your watchlist")), none⟩
    else
      let item : WatchlistEntry :=
        ⟨s.symbol, s.name, nowIso, s.price, s.change, s.changePercent⟩
      let wl := watchlist ++ [item]
      if saveOk then
        ⟨wl, some (.success (s.symbol ++ " added to watchlist")), some wl⟩
      else
        ⟨wl, some (.error "Failed to save to watchlist"), none⟩

/-- Outcome of `removeFromWatchlist`: the in-memory list, whether the
absence warning (`console.warn`) fired, the notification shown, and the
list written to `localStorage`. -/
structure RemoveResult where
  watchlist : List WatchlistEntry
  warnedAbsent : Bool
  notification : Option Notification
  persisted : Option (List WatchlistEntry)
  deriving DecidableEq, Repr

/-- `removeFromWatchlist(symbol)` (src/script.js 2905-2926): filter the
symbol out, warn and stop if the length did not change, otherwise persist
the filtered list (in-memory state keeps the filtered list even when the
write fails). -/
def removeFromWatchlist (watchlist : List WatchlistEntry) (symbol : String)
    (saveOk : Bool) : RemoveResult :=
  let filtered := watchlist.filter (fun st => st.symbol != symbol)
  if filtered.length = watchlist.length then
    ⟨filtered, true, none, none⟩
  else if saveOk then
    ⟨filtered, false, some (.success (symbol ++ " removed from watchlist")),
      some filtered⟩
  else
    ⟨filtered, false, some (.error "Failed to remove from watchlist"), none⟩

theorem length_filter_ne_symbol (watchlist : List WatchlistEntry)
    (symbol : String) :
    (watchlist.filter (fun st => st.symbol != symbol)).length
      = watchlist.length
        - watchlist.countP (fun st => st.symbol == symbol) := by
  have h := List.length_eq_countP_add_countP
    (fun st : WatchlistEntry => st.symbol == symbol) watchlist
  have h2 : watchlist.countP
      (fun st : WatchlistEntry => decide ¬(st.symbol == symbol) = true)
      = watchlist.countP (fun st : WatchlistEntry => st.symbol != symbol) := by
    apply List.countP_congr
    intro st _
    by_cases hc : st.symbol = symbol
    · simp [hc]
    · simp [hc]
  rw [h2] at h
  rw [← List.countP_eq_length_filter]
  omega

/-- C6: adding an already-present symbol is rejected with a warning and
leaves the watchlist unchanged; adding a fresh symbol appends exactly one
entry; hence adding the same stock twice leaves exactly one entry carrying
its symbol. -/
theorem watchlist_add_unique (s : Stock) (watchlist wl' : List WatchlistEntry)
    (nowIso nowIso' : String) (saveOk saveOk' : Bool)
    (hfresh : watchlist.countP (fun st => st.symbol == s.symbol) = 0) :
    (wl'.any (fun st => st.symbol == s.symbol) = true →
      addToWatchlist (some s) wl' nowIso saveOk =
        ⟨wl', some (.warning (s.symbol ++ " is already in your watchlist")),
          none⟩) ∧
    (addToWatchlist (some s) watchlist nowIso saveOk).watchlist
      = watchlist ++
        [⟨s.symbol, s.name, nowIso, s.price, s.change, s.changePercent⟩] ∧
    ((addToWatchlist (some s)
        (addToWatchlist (some s) watchlist nowIso saveOk).watchlist
        nowIso' saveOk').watchlist.countP
      (fun st => st.symbol == s.symbol)) = 1 := by
  have hany : watchlist.any (fun st => st.symbol == s.symbol) = false := by
    rw [List.any_eq_false]
    intro st hst
    have := List.countP_eq_zero.mp hfresh st hst
    simpa using this
  refine ⟨?_, ?_, ?_⟩
  · intro hpres
    simp only [addToWatchlist, hpres, if_true]
  · simp only [addToWatchlist, hany, Bool.false_eq_true, if_false]
    cases saveOk <;> rfl
  · have hstep : (addToWatchlist (some s) watchlist nowIso saveOk).watchlist
        = watchlist ++
          [⟨s.symbol, s.name, nowIso, s.price, s.change, s.changePercent⟩] := by
      simp only [addToWatchlist, hany, Bool.false_eq_true, if_false]
      cases saveOk <;> rfl
    rw [hstep]
    have hcount : (watchlist ++
        [(⟨s.symbol, s.name, nowIso, s.price, s.change, s.changePercent⟩ :
          WatchlistEntry)]).countP (fun st => st.symbol == s.symbol) = 1 := by
      rw [List.countP_append, hfresh]
      simp [List.countP_cons]
    have hany2 : (watchlist ++
        [(⟨s.symbol, s.name, nowIso, s.price, s.change, s.changePercent⟩ :
          WatchlistEntry)]).any (fun st => st.symbol == s.symbol) = true := by
      rw [List.any_eq_true]
      exact ⟨⟨s.symbol, s.name, nowIso, s.price, s.change, s.changePercent⟩,
        by simp, by simp⟩
    simp only [addToWatchlist, hany2, if_true]
    exact hcount

/-- C6 witness: adding stock `AAA` twice to an empty watchlist appends it
once, then rejects the duplicate, leaving exactly one `AAA` entry. -/
theorem watchlist_add_unique_witness :
    (([⟨"AAA", "A Corp", "t0", 1, 0, 0⟩] :
        List WatchlistEntry).any (fun st => st.symbol == "AAA") = true →
      addToWatchlist (some ⟨"AAA", "A Corp", 1, 0, 0⟩)
          [⟨"AAA", "A Corp", "t0", 1, 0, 0⟩] "t1" true =
        ⟨[⟨"AAA", "A Corp", "t0", 1, 0, 0⟩],
          some (.warning ("AAA" ++ " is already in your watchlist")), none⟩) ∧
    (addToWatchlist (some ⟨"AAA", "A Corp", 1, 0, 0⟩) [] "t1" true).watchlist
      = [] ++ [⟨"AAA", "A Corp", "t1", 1, 0, 0⟩] ∧
    ((addToWatchlist (some ⟨"AAA", "A Corp", 1, 0, 0⟩)
        (addToWatchlist (some ⟨"AAA", "A Corp", 1, 0, 0⟩) [] "t1"
          true).watchlist
        "t2" true).watchlist.countP (fun st => st.symbol == "AAA")) = 1 :=
  watchlist_add_unique ⟨"AAA", "A Corp", 1, 0, 0⟩ []
    [⟨"AAA", "A Corp", "t0", 1, 0, 0⟩] "t1" "t2" true true (by decide)

/-- C7: removing an absent symbol leaves the watchlist unchanged and
signals absence; when each symbol occurs at most once, removing a present
symbol shrinks the list by exactly one and the persisted state (on a
successful write) is the reduced list. -/
theorem watchlist_remove_spec (watchlist : List WatchlistEntry)
    (symbol : String) (saveOk : Bool)
    (hunique : watchlist.countP (fun st => st.symbol == symbol) ≤ 1) :
    (watchlist.countP (fun st => st.symbol == symbol) = 0 →
      (removeFromWatchlist watchlist symbol saveOk).watchlist = watchlist ∧
      (removeFromWatchlist watchlist symbol saveOk).warnedAbsent = true) ∧
    (watchlist.countP (fun st => st.symbol == symbol) = 1 →
      (removeFromWatchlist watchlist symbol saveOk).watchlist.length
          = watchlist.length - 1 ∧
      (saveOk = true →
        (removeFromWatchlist watchlist symbol saveOk).persisted
          = some (removeFromWatchlist watchlist symbol saveOk).watchlist)) := by
  have hlen := length_filter_ne_symbol watchlist symbol
  constructor
  · intro h0
    have hself : watchlist.filter (fun st => st.symbol != symbol)
        = watchlist := by
      apply List.filter_eq_self.mpr
      intro st hst
      have := List.countP_eq_zero.mp h0 st hst
      simpa using this
    simp only [removeFromWatchlist, hself, if_pos rfl]
    exact ⟨rfl, rfl⟩
  · intro h1
    have hpos : 1 ≤ watchlist.length := by
      have := List.countP_le_length
        (p := fun st : WatchlistEntry => st.symbol == symbol) (l := watchlist)
      omega
    have hne : (watchlist.filter (fun st => st.symbol != symbol)).length
        ≠ watchlist.length := by omega
    have hw : (removeFromWatchlist watchlist symbol saveOk).watchlist
        = watchlist.filter (fun st => st.symbol != symbol) := by
      simp only [removeFromWatchlist]
      split_ifs <;> rfl
    constructor
    · rw [hw]; omega
    · intro hsave
      subst hsave
      simp [removeFromWatchlist, hne]

/-- C7 witness: on a one-entry watchlist holding `AAA`, removing `BBB`
warns and changes nothing, and removing `AAA` (instantiated separately
below through the same theorem) shrinks the list; here the absent branch
is discharged at count 0 and the present branch is vacuous. -/
theorem watchlist_remove_spec_witness :
    (([⟨"AAA", "A Corp", "t0", 1, 0, 0⟩] :
        List WatchlistEntry).countP (fun st => st.symbol == "AAA") ≤ 1) ∧
    ((([⟨"AAA", "A Corp", "t0", 1, 0, 0⟩] :
        List WatchlistEntry).countP (fun st => st.symbol == "AAA") = 0 →
      (removeFromWatchlist [⟨"AAA", "A Corp", "t0", 1, 0, 0⟩] "AAA"
          true).watchlist = [⟨"AAA", "A Corp", "t0", 1, 0, 0⟩] ∧
      (removeFromWatchlist [⟨"AAA", "A Corp", "t0", 1, 0, 0⟩] "AAA"
          true).warnedAbsent = true) ∧
    (([⟨"AAA", "A Corp", "t0", 1, 0, 0⟩] :
        List WatchlistEntry).countP (fun st => st.symbol == "AAA") = 1 →
      (removeFromWatchlist [⟨"AAA", "A Corp", "t0", 1, 0, 0⟩] "AAA"
          true).watchlist.length
          = ([⟨"AAA", "A Corp", "t0", 1, 0, 0⟩] :
            List WatchlistEntry).length - 1 ∧
      (true = true →
        (removeFromWatchlist [⟨"AAA", "A Corp", "t0", 1, 0, 0⟩] "AAA"
            true).persisted
          = some (removeFromWatchlist [⟨"AAA", "A Corp", "t0", 1, 0, 0⟩]
              "AAA" true).watchlist))) :=
  ⟨by decide,
    watchlist_remove_spec [⟨"AAA", "A Corp", "t0", 1, 0, 0⟩] "AAA" true
      (by decide)⟩

/-- Canvas drawing command vocabulary used by the chart renderers (`arc`
is always a full `0..2π` circle in the source, so the angles are
omitted). -/
inductive DrawCmd where
  | clearRect (x y w h : ℚ)
  | fillRect (x y w h : ℚ)
  | setFillColor (c : String)
  | setStrokeColor (c : String)
  | setLineWidth (w : ℚ)
  | setFillGradient (x0 y0 x1 y1 : ℚ) (stops : List (ℚ × String))
  | beginPath
  | moveTo (x y : ℚ)
  | lineTo (x y : ℚ)
  | closePath
  | fill
  | stroke
  | arc (x y r : ℚ)
  deriving DecidableEq, Repr

/-- JS `a >= b` on possibly-undefined operands: `undefined >= undefined`
is `false` (NaN comparison), as in `values[values.length-1] >= values[0]`
on an empty array. -/
def jsGE (a b : Option ℚ) : Bool :=
  match a, b with
  | some x, some y => decide (y ≤ x)
  | _, _ => false

/-- The `data.forEach` path-building idiom of every renderer: `moveTo` at
index 0, `lineTo` afterwards. -/
def pathCmds (pts : List (ℚ × ℚ)) : List DrawCmd :=
  pts.enum.map (fun ip =>
    if ip.1 = 0 then DrawCmd.moveTo ip.2.1 ip.2.2
    else DrawCmd.lineTo ip.2.1 ip.2.2)

/-- `maxPrice - minPrice || 1` of `drawStockLineChart` (src/script.js
989-993): the guarded price range. -/
def stockLinePriceRange (data : List PricePoint) : ℚ :=
  orDefault (listMax (data.map PricePoint.price)
    - listMin (data.map PricePoint.price)) 1

/-- `maxValue - minValue || 1` shared by `drawMiniChart` (src/script.js
1987-1990) and `drawEnhancedMiniChart` (1553-1557). -/
def valueRange (values : List ℚ) : ℚ :=
  orDefault (listMax values - listMin values) 1

/-- `maxPrice - minPrice` of `drawComprehensiveChart` (src/script.js
2418-2422): this renderer has NO `|| 1` guard on its price range. -/
def comprehensivePriceRange (priceData : List PricePoint) : ℚ :=
  listMax (priceData.map PricePoint.price)
    - listMin (priceData.map PricePoint.price)

/-- `drawStockLineChart(ctx, data, width, height)` (src/script.js
979-1044).  Result: the executed drawing commands plus `none` (this
renderer guards the empty series and cannot throw). -/
def drawStockLineChart (data : List PricePoint) (width height : ℚ) :
    List DrawCmd × Option String :=
  let padding : ℚ := 20
  let chartWidth := width - 2 * padding
  let chartHeight := height - 2 * padding
  let cleared := [DrawCmd.clearRect 0 0 width height]
  if data.length = 0 then (cleared, none)
  else
    let prices := data.map PricePoint.price
    let minPrice := listMin prices
    let priceRange := stockLinePriceRange data
    let pts := data.enum.map (fun ip =>
      (mapX ip.1 data.length padding chartWidth,
        mapY ip.2.price minPrice priceRange padding chartHeight))
    let area := [DrawCmd.setFillGradient 0 padding 0 (height - padding)
        [(0, "rgba(139, 92, 246, 0.3)"), (1, "rgba(139, 92, 246, 0.05)")],
      DrawCmd.beginPath] ++ pathCmds pts ++
      [DrawCmd.lineTo (padding + chartWidth) (height - padding),
        DrawCmd.lineTo padding (height - padding),
        DrawCmd.closePath, DrawCmd.fill]
    let line := [DrawCmd.setStrokeColor "#8b5cf6", DrawCmd.setLineWidth 2,
      DrawCmd.beginPath] ++ pathCmds pts ++ [DrawCmd.stroke]
    let lastX := padding + chartWidth
    let lastY := mapY (priceAt data (data.length - 1)) minPrice priceRange
      padding chartHeight
    let dot := [DrawCmd.setFillColor "#8b5cf6", DrawCmd.beginPath,
      DrawCmd.arc lastX lastY 4, DrawCmd.fill]
    (cleared ++ area ++ line ++ dot, none)

/-- A `{ value }` point of `generateMiniChartData`. -/
structure MiniPoint where
  value : ℚ
  deriving DecidableEq, Repr

/-- A `{ value, volume }` point of `generateEnhancedChartData`. -/
structure EnhPoint where
  value : ℚ
  volume : ℚ
  deriving DecidableEq, Repr

/-- `drawMiniChart(ctx, data, width, height)` (src/script.js 1978-2035).
No empty-series guard, but the body merely iterates over `data`, so an
empty series draws an empty path and no exception arises. -/
def drawMiniChart (data : List MiniPoint) (width height : ℚ) :
    List DrawCmd × Option String :=
  let padding : ℚ := 5
  let chartWidth := width - 2 * padding
  let chartHeight := height - 2 * padding
  let values := data.map MiniPoint.value
  let minValue := listMin values
  let range := valueRange values
  let isPositive := jsGE values.getLast? values.head?
  let lineColor := if isPositive then "#10b981" else "#ef4444"
  let fillColor := if isPositive then "rgba(16, 185, 129, 0.1)"
    else "rgba(239, 68, 68, 0.1)"
  let pts := data.enum.map (fun ip =>
    (mapX ip.1 data.length padding chartWidth,
      mapY ip.2.value minValue range padding chartHeight))
  ([DrawCmd.clearRect 0 0 width height,
    DrawCmd.setFillGradient 0 padding 0 (height - padding)
      [(0, fillColor), (1, "transparent")],
    DrawCmd.beginPath] ++ pathCmds pts ++
    [DrawCmd.lineTo (padding + chartWidth) (height - padding),
      DrawCmd.lineTo padding (height - padding),
      DrawCmd.closePath, DrawCmd.fill,
      DrawCmd.setStrokeColor lineColor, DrawCmd.setLineWidth 2,
      DrawCmd.beginPath] ++ pathCmds pts ++ [DrawCmd.stroke], none)

/-- `drawEnhancedMiniChart(ctx, data, width, height)` (src/script.js
1544-1626).  `rnd` models the `Math.random()` fallbacks for falsy
volumes, indexed by element position (first pass at `i`, second pass at
`data.length + i`).  The final block reads
`data[data.length - 1].value`; on an empty series that is
`undefined.value`, a thrown `TypeError`, reported in the second
component. -/
def drawEnhancedMiniChart (data : List EnhPoint) (width height : ℚ)
    (rnd : ℕ → ℚ) : List DrawCmd × Option String :=
  let padding : ℚ := 10
  let chartWidth := width - 2 * padding
  let chartHeight := height - 2 * padding - 20
  let values := data.map EnhPoint.value
  let volumes := data.enum.map (fun ip =>
    orDefault ip.2.volume (rnd ip.1 * 100))
  let minValue := listMin values
  let range := valueRange values
  let maxVolume := listMax volumes
  let isPositive := jsGE values.getLast? values.head?
  let lineColor := if isPositive then "#10b981" else "#ef4444"
  let fillColor := if isPositive then "rgba(16, 185, 129, 0.2)"
    else "rgba(239, 68, 68, 0.2)"
  let volumeHeight : ℚ := 15
  let volumeY := height - volumeHeight - 5
  let bars := data.enum.map (fun ip =>
    let x := mapX ip.1 data.length padding chartWidth
    let barHeight := orDefault ip.2.volume (rnd (data.length + ip.1) * 100)
      / maxVolume * volumeHeight
    let barWidth := chartWidth / (data.length : ℚ) * (8/10)
    DrawCmd.fillRect (x - barWidth / 2) (volumeY + volumeHeight - barHeight)
      barWidth barHeight)
  let pts := data.enum.map (fun ip =>
    (mapX ip.1 data.length padding chartWidth,
      mapY ip.2.value minValue range padding chartHeight))
  let body := [DrawCmd.clearRect 0 0 width height,
    DrawCmd.setFillColor "rgba(156, 163, 175, 0.5)"] ++ bars ++
    [DrawCmd.setFillGradient 0 padding 0 (padding + chartHeight)
      [(0, fillColor), (1, "transparent")],
    DrawCmd.beginPath] ++ pathCmds pts ++
    [DrawCmd.lineTo (padding + chartWidth) (padding + chartHeight),
      DrawCmd.lineTo padding (padding + chartHeight),
      DrawCmd.closePath, DrawCmd.fill,
      DrawCmd.setStrokeColor lineColor, DrawCmd.setLineWidth 2,
      DrawCmd.beginPath] ++ pathCmds pts ++ [DrawCmd.stroke]
  match data.getLast? with
  | none =>
    (body, some "TypeError: cannot read properties of undefined (reading value)")
  | some lastPoint =>
    let lastX := padding + chartWidth
    let lastY := mapY lastPoint.value minValue range padding chartHeight
    (body ++ [DrawCmd.setFillColor lineColor, DrawCmd.beginPath,
      DrawCmd.arc lastX lastY 3, DrawCmd.fill], none)

/-- C3 at the failing input: on the flat two-point series of price `42`,
the guarded renderers substitute range 1 (so `mapY` sends every point to
the single coordinate `padding + chartHeight`), but
`drawComprehensiveChart`'s range is `0`, which the claim's guard was
supposed to prevent — its `mapY` division is a division by zero (`NaN`
coordinates in JS). -/
theorem flat_series_range_guard :
    comprehensivePriceRange [⟨0, 42, 0⟩, ⟨0, 42, 0⟩] = 0 ∧
    stockLinePriceRange [⟨0, 42, 0⟩, ⟨0, 42, 0⟩] = 1 ∧
    valueRange [42, 42] = 1 ∧
    mapY 42 42 (stockLinePriceRange [⟨0, 42, 0⟩, ⟨0, 42, 0⟩]) 20 110
      = 20 + 110 := by
  refine ⟨?_, ?_, ?_, ?_⟩
  · norm_num [comprehensivePriceRange, listMax, listMin]
  · norm_num [stockLinePriceRange, listMax, listMin, orDefault]
  · norm_num [valueRange, listMax, listMin, orDefault]
  · norm_num [stockLinePriceRange, listMax, listMin, orDefault, mapY]

/-- C4 at the failing input: on an empty series `drawStockLineChart`
returns right after clearing (no drawing, no exception) and
`drawMiniChart` finishes without an exception, but `drawEnhancedMiniChart`
throws a `TypeError` reading `.value` of `data[data.length - 1]`, so an
exception escapes to the caller, contrary to the claim. -/
theorem empty_series_renderers :
    drawStockLineChart [] 300 150 = ([DrawCmd.clearRect 0 0 300 150], none) ∧
    (drawMiniChart [] 300 150).2 = none ∧
    (drawEnhancedMiniChart [] 300 150 (fun _ => 0)).2
      = some "TypeError: cannot read properties of undefined (reading value)" := by
  exact ⟨rfl, rfl, rfl⟩

/-- The clamped multiplicative walk that `generateHistoricalPrices`
performs on the all-zeros random stream: each step multiplies by `q` and
clamps below at `f`. -/
def clampWalk (q f p : ℚ) : ℕ → ℚ
  | 0 => p
  | k + 1 => max (clampWalk q f p k * q) f

theorem clampWalk_shift (q f p : ℚ) :
    ∀ m, clampWalk q f (max (p * q) f) m = clampWalk q f p (m + 1) := by
  intro m
  induction m with
  | zero => rfl
  | succ j ih => simp only [clampWalk, ih]

theorem clampWalk_closed (q f p : ℚ) (hq0 : 0 ≤ q) (hq1 : q ≤ 1)
    (hf : 0 ≤ f) : ∀ k, clampWalk q f p (k + 1) = max (p * q ^ (k + 1)) f := by
  intro k
  induction k with
  | zero => simp [clampWalk]
  | succ j ih =>
    have hstep : clampWalk q f p (j + 2) = max (clampWalk q f p (j + 1) * q) f :=
      rfl
    rw [hstep, ih, max_mul_of_nonneg _ _ hq0, max_assoc,
      max_eq_right (mul_le_of_le_one_right hf hq1), mul_assoc, ← pow_succ]

theorem genHistSteps_zero_get (c : ℚ) (d : ℕ) (now : ℤ) :
    ∀ (n k i : ℕ) (p : ℚ), k < n →
      (genHistSteps c d now (fun _ => 0) i p n).get? k
        = some ⟨now - ((d : ℤ) - ((i : ℤ) + (k : ℤ))) * 86400000,
            round2 (clampWalk (197/200) (c * (1/2)) p (k + 1)),
            10000000⟩ := by
  intro n
  induction n with
  | zero => intro k i p hk; omega
  | succ m ih =>
    intro k i p hk
    have hchange : (1 : ℚ) + (((0 : ℚ) - 1/2) * (2/100 + (0 : ℚ) * (3/100))
        + ((0 : ℚ) - 1/2) * (1/100)) = 197/200 := by norm_num
    cases k with
    | zero =>
      simp only [genHistSteps, List.get?_cons_zero]
      refine congrArg some (PricePoint.ext ?_ ?_ ?_)
      · push_cast; ring
      · show round2 (max (p * (1 + (((0:ℚ) - 1/2) * (2/100 + (0:ℚ) * (3/100))
          + ((0:ℚ) - 1/2) * (1/100)))) (c * (1/2)))
          = round2 (clampWalk (197/200) (c * (1/2)) p 1)
        norm_num [clampWalk]
      · show (⌊(0 : ℚ) * 50000000⌋ + 10000000 : ℤ) = 10000000
        norm_num
    | succ j =>
      simp only [genHistSteps, List.get?_cons_succ]
      rw [ih j (i + 1) _ (by omega)]
      congr 1
      refine PricePoint.ext ?_ ?_ ?_
      · push_cast; ring
      · show round2 (clampWalk (197/200) (c * (1/2))
            (max (p * (1 + (((0:ℚ) - 1/2) * (2/100 + (0:ℚ) * (3/100))
              + ((0:ℚ) - 1/2) * (1/100)))) (c * (1/2))) (j + 1))
          = round2 (clampWalk (197/200) (c * (1/2)) p (j + 1 + 1))
        rw [show (1 : ℚ) + (((0:ℚ) - 1/2) * (2/100 + (0:ℚ) * (3/100))
          + ((0:ℚ) - 1/2) * (1/100)) = 197/200 from hchange,
          clampWalk_shift]
      · rfl

theorem setLastPrice_get? :
    ∀ (l : List PricePoint) (c : ℚ) (k : ℕ), k + 1 < l.length →
      (setLastPrice l c).get? k = l.get? k := by
  intro l
  induction l with
  | nil => intro c k hk; simp at hk
  | cons p ps ih =>
    intro c k hk
    cases ps with
    | nil => simp at hk
    | cons q qs =>
      cases k with
      | zero => rfl
      | succ j =>
        simp only [setLastPrice, List.get?_cons_succ]
        exact ih c j (by simpa using hk)

/-- C8 counterexample: on current price `1.0298` with the all-zeros
random stream (a legal stream: every draw lies in `[0,1)`), index 35 of
the 40-day series stores price `0.51`, which is strictly below
`0.5 * 1.0298 = 0.5149`: the clamp holds before rounding, but the stored
2-decimal rounding dips below it. -/
theorem historical_price_below_half_base :
    ∃ pt ∈ generateHistoricalPrices (5149/5000) 40 0 (fun _ => 0),
      pt.price < (5149/5000) * (1/2) := by
  have hq0 : (0 : ℚ) ≤ 197/200 := by norm_num
  have hq1 : (197/200 : ℚ) ≤ 1 := by norm_num
  have hf : (0 : ℚ) ≤ (5149/5000 : ℚ) * (1/2) := by norm_num
  have hstart : ((5149/5000 : ℚ) * (85/100 + (0 : ℚ) * (3/10)))
      = 87533/100000 := by norm_num
  have hg := genHistSteps_zero_get (5149/5000) 40 0 40 35 0
    ((5149/5000) * (85/100 + (0 : ℚ) * (3/10))) (by norm_num)
  have hwalk : clampWalk (197/200) ((5149/5000) * (1/2))
      ((5149/5000) * (85/100 + (0 : ℚ) * (3/10))) 36
      = (5149/5000) * (1/2) := by
    rw [show (36 : ℕ) = 35 + 1 from rfl,
      clampWalk_closed _ _ _ hq0 hq1 hf 35, hstart]
    exact max_eq_right (by norm_num)
  have hround : round2 ((5149/5000 : ℚ) * (1/2)) = 51/100 := by
    unfold round2
    rw [show ((5149/5000 : ℚ) * (1/2)) * 100 + 1/2 = 5199/100 by norm_num,
      show (⌊(5199/100 : ℚ)⌋ : ℤ) = 51 by rw [Int.floor_eq_iff]; norm_num]
    norm_num
  have hlen : (genHistSteps (5149/5000) 40 0 (fun _ => 0) 0
      ((5149/5000) * (85/100 + (0 : ℚ) * (3/10))) 40).length = 40 :=
    length_genHistSteps _ _ _ _ 40 0 _
  have hget : (generateHistoricalPrices (5149/5000) 40 0
      (fun _ => 0)).get? 35
      = some ⟨0 - ((40 : ℤ) - ((0 : ℤ) + (35 : ℤ))) * 86400000,
          51/100, 10000000⟩ := by
    show (setLastPrice (genHistSteps (5149/5000) 40 0 (fun _ => 0) 0
      ((5149/5000) * (85/100 + (0 : ℚ) * (3/10))) 40) (5149/5000)).get? 35
      = _
    rw [setLastPrice_get? _ _ 35 (by rw [hlen]; norm_num),
      hg, show (35 : ℕ) + 1 = 36 from rfl, hwalk, hround]
    norm_num
  refine ⟨⟨0 - ((40 : ℤ) - ((0 : ℤ) + (35 : ℤ))) * 86400000,
    51/100, 10000000⟩, List.get?_mem hget, by norm_num⟩

theorem round2_bounds (x : ℚ) :
    x - 1/200 < round2 x ∧ round2 x ≤ x + 1/200 := by
  have h1 := Int.sub_one_lt_floor (x * 100 + 1/2)
  have h2 := Int.floor_le (x * 100 + 1/2)
  unfold round2
  constructor <;> linarith

theorem genHistSteps_price_ge (c : ℚ) (d : ℕ) (now : ℤ) (rnd : ℕ → ℚ) :
    ∀ (n i : ℕ) (p : ℚ) (pt : PricePoint),
      pt ∈ genHistSteps c d now rnd i p n →
      ∃ y, c * (1/2) ≤ y ∧ pt.price = round2 y := by
  intro n
  induction n with
  | zero => intro i p pt h; simp [genHistSteps] at h
  | succ m ih =>
    intro i p pt h
    simp only [genHistSteps] at h
    rcases List.mem_cons.mp h with hhead | htail
    · exact ⟨max (p * (1 + ((rnd (4*i+3) - 1/2)
        * (2/100 + rnd (4*i+1) * (3/100)) + (rnd (4*i+2) - 1/2) * (1/100))))
          (c * (1/2)),
        le_max_right _ _, by rw [hhead]⟩
    · exact ih (i + 1) _ pt htail

theorem mem_setLastPrice (c : ℚ) :
    ∀ (l : List PricePoint) (pt : PricePoint),
      pt ∈ setLastPrice l c → pt ∈ l ∨ pt.price = c := by
  intro l
  induction l with
  | nil => intro pt h; simp [setLastPrice] at h
  | cons p ps ih =>
    intro pt h
    cases ps with
    | nil =>
      simp only [setLastPrice, List.mem_singleton] at h
      right
      rw [h]
    | cons q qs =>
      simp only [setLastPrice, List.mem_cons] at h
      rcases h with h | h
      · left; rw [h]; exact List.mem_cons_self _ _
      · rcases ih pt h with h2 | h2
        · left; exact List.mem_cons_of_mem _ h2
        · right; exact h2

/-- C8 amended: every stored price of the long-form historical generator
is strictly above `0.5 * basePrice - 0.005` (for a non-negative base
price): the clamp guarantees `0.5 * basePrice` before rounding, and the
2-decimal rounding can lower a stored value by strictly less than half a
cent. -/
theorem historical_prices_above_half_base (c : ℚ) (days : ℕ) (now : ℤ)
    (rnd : ℕ → ℚ) (hc : 0 ≤ c) :
    ∀ pt ∈ generateHistoricalPrices c days now rnd,
      c * (1/2) - 1/200 < pt.price := by
  intro pt hmem
  unfold generateHistoricalPrices at hmem
  rcases mem_setLastPrice c _ pt hmem with h | h
  · obtain ⟨y, hy, hpr⟩ := genHistSteps_price_ge c days now rnd days 0 _ pt h
    have hb := (round2_bounds y).1
    rw [hpr]
    linarith
  · rw [h]
    linarith

/-- C8 amended witness: at base price 100 with a one-day all-zeros run,
the single (overwritten) point's price `100` is above `49.995`. -/
theorem historical_prices_above_half_base_witness :
    (0 : ℚ) ≤ 100 ∧
    (100 : ℚ) * (1/2) - 1/200
      < (⟨-86400000, 100, 10000000⟩ : PricePoint).price := by
  have heq : generateHistoricalPrices 100 1 0 (fun _ => 0)
      = [⟨-86400000, 100, 10000000⟩] := by
    show setLastPrice (genHistSteps 100 1 0 (fun _ => 0) 0
      (100 * (85/100 + (0 : ℚ) * (3/10))) 1) 100 = _
    simp only [genHistSteps, setLastPrice]
    congr 1
    refine PricePoint.ext (by norm_num) rfl ?_
    show (⌊(0 : ℚ) * 50000000⌋ + 10000000 : ℤ) = 10000000
    norm_num
  refine ⟨by norm_num, ?_⟩
  have h := historical_prices_above_half_base 100 1 0 (fun _ => 0)
    (by norm_num) ⟨-86400000, 100, 10000000⟩ (by rw [heq]; simp)
  exact h

/-- The `companyNames` table of `getDemoStockData` (src/script.js
452-469). -/
def companyNames (symbol : String) : Option String :=
  if symbol = "AAPL" then some "Apple Inc."
  else if symbol = "GOOGL" then some "Alphabet Inc."
  else if symbol = "MSFT" then some "Microsoft Corporation"
  else if symbol = "TSLA" then some "Tesla, Inc."
  else if symbol = "AMZN" then some "Amazon.com, Inc."
  else if symbol = "META" then some "Meta Platforms, Inc."
  else if symbol = "NVDA" then some "NVIDIA Corporation"
  else if symbol = "NFLX" then some "Netflix, Inc."
  else if symbol = "AMD" then some "Advanced Micro Devices, Inc."
  else if symbol = "INTC" then some "Intel Corporation"
  else if symbol = "UBER" then some "Uber Technologies, Inc."
  else if symbol = "SNAP" then some "Snap Inc."
  else if symbol = "PYPL" then some "PayPal Holdings, Inc."
  else if symbol = "SQ" then some "Block, Inc."
  else if symbol = "ZOOM" then some "Zoom Video Communications"
  else none

/-- The `basePrices` table of `getDemoStockData` (src/script.js 472-476). -/
def basePrices (symbol : String) : Option ℚ :=
  if symbol = "AAPL" then some 180
  else if symbol = "GOOGL" then some 140
  else if symbol = "MSFT" then some 380
  else if symbol = "TSLA" then some 250
  else if symbol = "AMZN" then some 160
  else if symbol = "META" then some 300
  else if symbol = "NVDA" then some 450
  else if symbol = "NFLX" then some 400
  else if symbol = "AMD" then some 140
  else if symbol = "INTC" then some 50
  else if symbol = "UBER" then some 65
  else if symbol = "SNAP" then some 12
  else if symbol = "PYPL" then some 60
  else if symbol = "SQ" then some 80
  else if symbol = "ZOOM" then some 70
  else none

/-- The demo Quote snapshot (src/script.js 477-520).  `openPrice` is the
JS field `open` (a Lean keyword); the formatted string fields
(`marketCap` suffix, `revenue`/`netProfit` `"B"` suffixes, `profitMargin`
`"%"`, `timestamp`) are modelled by their numeric values. -/
structure Quote where
  symbol : String
  name : String
  price : ℚ
  change : ℚ
  changePercent : ℚ
  openPrice : ℚ
  high : ℚ
  low : ℚ
  previousClose : ℚ
  volume : ℤ
  marketCapValue : ℚ
  revenueB : ℤ
  netProfitB : ℤ
  profitMarginPct : ℚ
  historicalPrices : List PricePoint
  deriving DecidableEq, Repr

/-- The random-stream offset of `getDemoStockData`: an unknown symbol
draws one extra random first (the `||` fallback base price), shifting
every later `Math.random()` by one. -/
def demoOffset (symbol : String) : ℕ :=
  match basePrices symbol with | some _ => 0 | none => 1

/-- `basePrices[symbol] || (Math.random() * 150 + 50)` (src/script.js
477). -/
def demoBasePrice (symbol : String) (rnd : ℕ → ℚ) : ℚ :=
  match basePrices symbol with | some b => b | none => rnd 0 * 150 + 50

/-- `currentPrice = basePrice + (Math.random() - 0.5) * variance` with
`variance = basePrice * 0.1` (src/script.js 478-479). -/
def demoCurrentPrice (symbol : String) (rnd : ℕ → ℚ) : ℚ :=
  demoBasePrice symbol rnd
    + (rnd (demoOffset symbol) - 1/2) * (demoBasePrice symbol rnd * (1/10))

/-- `change = (Math.random() - 0.5) * (basePrice * 0.08)` (src/script.js
481). -/
def demoChange (symbol : String) (rnd : ℕ → ℚ) : ℚ :=
  (rnd (demoOffset symbol + 1) - 1/2)
    * (demoBasePrice symbol rnd * (8/100))

/-- `getDemoStockData(symbol)` (src/script.js 477-520).  The random
stream is consumed left to right starting after `demoOffset`. -/
def getDemoStockData (symbol : String) (now : ℤ) (rnd : ℕ → ℚ) : Quote :=
  let o : ℕ := demoOffset symbol
  let basePrice : ℚ := demoBasePrice symbol rnd
  let currentPrice := demoCurrentPrice symbol rnd
  let change := demoChange symbol rnd
  let changePercent := change / (currentPrice - change) * 100
  let openPrice := currentPrice + (rnd (o+2) - 1/2) * (basePrice * (3/100))
  let high := max currentPrice openPrice + rnd (o+3) * (basePrice * (2/100))
  let low := min currentPrice openPrice - rnd (o+4) * (basePrice * (2/100))
  let previousClose := currentPrice - change
  let volume := ⌊rnd (o+5) * 80000000⌋ + 5000000
  let shares := rnd (o+6) * 8 + 2
  let marketCapValue := currentPrice * shares
  { symbol := symbol
    name := match companyNames symbol with
      | some n => n
      | none => symbol ++ " Corporation"
    price := round2 currentPrice
    change := round2 change
    changePercent := round2 changePercent
    openPrice := round2 openPrice
    high := round2 high
    low := round2 low
    previousClose := round2 previousClose
    volume := volume
    marketCapValue := marketCapValue
    revenueB := ⌊rnd (o+7) * 300 + 50⌋
    netProfitB := ⌊rnd (o+8) * 80 + 10⌋
    profitMarginPct := rnd (o+9) * 25 + 5
    historicalPrices :=
      generateHistoricalPrices currentPrice 30 now (fun n => rnd (o+10+n)) }

/-- The random stream of the C9 counterexample: the first draw makes
`currentPrice = 180.004`, the second makes `change = 0.008`; every draw
lies in `[0,1)`. -/
def demoRnd : ℕ → ℚ :=
  fun n => if n = 0 then 2251/4500 else if n = 1 then 901/1800 else 0

/-- C9 counterexample: for symbol `AAPL` under `demoRnd`, the returned
fields are `price = 180.00`, `change = 0.01`, `previousClose = 180.00`
(each rounded independently), so `change ≠ price - previousClose`. -/
theorem quote_change_identity_counterexample :
    (getDemoStockData "AAPL" 0 demoRnd).change
      ≠ (getDemoStockData "AAPL" 0 demoRnd).price
        - (getDemoStockData "AAPL" 0 demoRnd).previousClose := by
  have hbp : basePrices "AAPL" = some 180 := rfl
  have h0 : demoRnd 0 = 2251/4500 := rfl
  have h1 : demoRnd 1 = 901/1800 := rfl
  have hprice : (getDemoStockData "AAPL" 0 demoRnd).price = 180 := by
    show round2 (180 + (demoRnd 0 - 1/2) * (180 * (1/10))) = 180
    rw [h0, show (180 : ℚ) + (2251/4500 - 1/2) * (180 * (1/10))
      = 45001/250 by norm_num]
    unfold round2
    rw [show (45001/250 : ℚ) * 100 + 1/2 = 180009/10 by norm_num,
      show (⌊(180009/10 : ℚ)⌋ : ℤ) = 18000 by rw [Int.floor_eq_iff]; norm_num]
    norm_num
  have hchange : (getDemoStockData "AAPL" 0 demoRnd).change = 1/100 := by
    show round2 ((demoRnd (0+1) - 1/2) * (180 * (8/100))) = 1/100
    rw [show (0+1 : ℕ) = 1 from rfl, h1,
      show ((901/1800 : ℚ) - 1/2) * (180 * (8/100)) = 1/125 by norm_num]
    unfold round2
    rw [show (1/125 : ℚ) * 100 + 1/2 = 13/10 by norm_num,
      show (⌊(13/10 : ℚ)⌋ : ℤ) = 1 by rw [Int.floor_eq_iff]; norm_num]
    norm_num
  have hprev : (getDemoStockData "AAPL" 0 demoRnd).previousClose = 180 := by
    show round2 ((180 + (demoRnd 0 - 1/2) * (180 * (1/10)))
      - (demoRnd (0+1) - 1/2) * (180 * (8/100))) = 180
    rw [show (0+1 : ℕ) = 1 from rfl, h0, h1,
      show (180 : ℚ) + (2251/4500 - 1/2) * (180 * (1/10))
        - (901/1800 - 1/2) * (180 * (8/100)) = 44999/250 by norm_num]
    unfold round2
    rw [show (44999/250 : ℚ) * 100 + 1/2 = 180001/10 by norm_num,
      show (⌊(180001/10 : ℚ)⌋ : ℤ) = 18000 by rw [Int.floor_eq_iff]; norm_num]
    norm_num
  rw [hprice, hchange, hprev]
  norm_num

theorem round2_sub_identity (x ch : ℚ) :
    |round2 ch - (round2 x - round2 (x - ch))| ≤ 1/100 := by
  have b1 := round2_bounds ch
  have b2 := round2_bounds x
  have b3 := round2_bounds (x - ch)
  have hint : round2 ch - (round2 x - round2 (x - ch))
      = ((⌊ch * 100 + 1/2⌋ - ⌊x * 100 + 1/2⌋
          + ⌊(x - ch) * 100 + 1/2⌋ : ℤ) : ℚ) / 100 := by
    unfold round2
    push_cast
    ring
  set k : ℤ := ⌊ch * 100 + 1/2⌋ - ⌊x * 100 + 1/2⌋ + ⌊(x - ch) * 100 + 1/2⌋
  rw [hint]
  have hfrac : |(k : ℚ) / 100| < 3/200 := by
    rw [← hint, abs_lt]
    constructor <;> linarith
  have hcast : ((|k| : ℤ) : ℚ) = |(k : ℚ)| := Int.cast_abs
  have hk2 : |k| < 2 := by
    have habs : |(k : ℚ)| < 3/2 := by
      rw [abs_div, show |(100 : ℚ)| = 100 by norm_num] at hfrac
      linarith
    have h2 : ((|k| : ℤ) : ℚ) < 2 := by rw [hcast]; linarith
    exact_mod_cast h2
  have hkq : |(k : ℚ)| ≤ 1 := by
    rw [← hcast]
    have hk1 : |k| ≤ 1 := by omega
    exact_mod_cast hk1
  rw [abs_div, show |(100 : ℚ)| = 100 by norm_num]
  linarith

/-- C9 amended: the unrounded quote satisfies the identity exactly
(`previousClose` is computed as `currentPrice - change`), so the
returned, independently rounded fields satisfy it up to one cent:
`|change - (price - previousClose)| ≤ 0.01` for every symbol and every
random stream. -/
theorem quote_change_identity_within_cent (symbol : String) (now : ℤ)
    (rnd : ℕ → ℚ) :
    |(getDemoStockData symbol now rnd).change
        - ((getDemoStockData symbol now rnd).price
          - (getDemoStockData symbol now rnd).previousClose)| ≤ 1/100 :=
  round2_sub_identity (demoCurrentPrice symbol rnd) (demoChange symbol rnd)

end StockScope
